import Mathlib

/-!
Verification development for the rvim editor core (src/cli of the rvim
repository).  Rust strings are modelled as lists of characters, `usize` as
`Nat` with explicit wrapping modulo `2^64` where overflow matters, and
fallible or possibly non-returning calls as `Option`/`Except` values.

The components embedded here, each translated from the named source file:
  * shared text helpers modelling `str::trim`, `str::lines` and
    `Vec::join("\n")`;
  * `Document` from src/cli/buffer.rs (rope cache included, since its
    index arithmetic can panic);
  * `Editor.Document`, the private document type of src/cli/editor.rs;
  * `Window` from src/cli/window.rs;
  * `TabManager` from src/cli/tabs.rs;
  * `Shell` from src/cli/shell.rs, with the child process, its stdin
    handle and the mpsc output channel modelled explicitly.
-/

/-- Rust `String` contents, modelled as a list of characters. -/
abbrev Str := List Char

/-- The Unicode White_Space property, as used by Rust `char::is_whitespace`
(and hence `str::trim`). -/
def rustIsWhitespace (c : Char) : Bool :=
  c = ' ' || c = '\t' || c = '\n' || c = '\x0B' || c = '\x0C' || c = '\r' ||
  c = '\u0085' || c = '\u00A0' || c = '\u1680' ||
  ('\u2000' ≤ c && c ≤ '\u200A') ||
  c = '\u2028' || c = '\u2029' || c = '\u202F' || c = '\u205F' || c = '\u3000'

/-- Rust `str::trim`: strip leading and trailing whitespace. -/
def rustTrim (s : Str) : Str :=
  ((s.dropWhile rustIsWhitespace).reverse.dropWhile rustIsWhitespace).reverse

/-- Strip one trailing carriage return from a *reversed* segment, as
`str::lines` does for a segment that was terminated by a line feed. -/
def dropTrailingCr (s : Str) : Str :=
  match s with
  | c :: t => if c = '\r' then t else c :: t
  | [] => []

/-- Worker for `rustLines`; `acc` holds the current segment reversed. -/
def rustLinesGo : Str → Str → List Str
  | [], acc => if acc.isEmpty then [] else [acc.reverse]
  | c :: rest, acc =>
    if c = '\n' then (dropTrailingCr acc).reverse :: rustLinesGo rest []
    else rustLinesGo rest (c :: acc)

/-- Rust `str::lines`: split at `'\n'`, also stripping a `'\r'` that
immediately precedes a `'\n'`; a final line terminator is optional, and an
empty string yields no lines at all. -/
def rustLines (s : Str) : List Str := rustLinesGo s []

/-- Model of `lines.join("\n")`, the on-disk serialization used by `Document::save`. -/
def joinLines : List Str → Str
  | [] => []
  | [l] => l
  | l :: ls => l ++ '\n' :: joinLines ls

/-- The error type of src/error.rs, restricted to the variants the embedded
components mention.  The three `Tab*` constructors appear at the call sites
in src/cli/tabs.rs although the enum in src/error.rs omits them (a
compile-level gap of the repository); they are modelled as the call sites
use them. -/
inductive Error where
  | Io : Str → Error
  | ConfigError : Str → Error
  | ShellSpawnError : Str → Error
  | ShellInputError : Str → Error
  | ShellOutputError : Str → Error
  | Message : Str → Error
  | LockError : Str → Error
  | TabExists : Str → Error
  | TabError : Str → Error
  | TabNotFound : Nat → Error
  deriving DecidableEq

/-- The constant `usize::MAX + 1 = 2^64` (64-bit target), written as a numeral so that
`omega` can work with it. -/
def USIZE : Nat := 18446744073709551616

/-- Wrapping `usize` subtraction of one (`n - 1` under the release-profile
overflow semantics of Rust: the debug profile would panic on underflow). -/
def wrapPred (n : Nat) : Nat := (n + (USIZE - 1)) % USIZE

/-- The undo log of src/cli/buffer.rs (`UndoTree`): a flat list of
(position, snapshot) pairs. -/
structure UndoTree where
  history : List (Nat × Str)
  current : Nat
  deriving DecidableEq

/-- Model of `UndoTree::new`. -/
def UndoTree.new : UndoTree := { history := [], current := 0 }

/-- Model of `Document` of src/cli/buffer.rs.  The `rope` field models the ropey
rope as its character sequence; `lines` is the line cache the editing
operations read and write. -/
structure Document where
  rope : Str
  lines : List Str
  filename : Option Str
  modified : Bool
  undo_tree : UndoTree
  deriving DecidableEq

/-- Model of `Document::new` (src/cli/buffer.rs): empty rope, one empty cached line. -/
def Document.new : Document :=
  { rope := [], lines := [[]], filename := none, modified := false,
    undo_tree := UndoTree.new }

/-- Model of `Document::from_file` (src/cli/buffer.rs), on the `Ok` path of the
`fs::read_to_string` call whose result is the `content` argument:
`rope = content`, `lines = content.lines()`. -/
def Document.from_file (filename content : Str) : Document :=
  { rope := content, lines := rustLines content, filename := some filename,
    modified := false, undo_tree := UndoTree.new }

/-- Model of `Document::save` (src/cli/buffer.rs).  The filesystem write is modelled
by returning the written content `self.lines.join("\n")` next to the
updated document; without a filename the `Message` error is returned. -/
def Document.save (d : Document) : Except Error (Document × Str) :=
  match d.filename with
  | some _ => .ok ({ d with modified := false }, joinLines d.lines)
  | none => .error (.Message ("No filename specified".toList))

/-- Model of `Document::get_char_position` (src/cli/buffer.rs): sum of
`lines[i].len() + 1` for `i < row`, plus `col`. -/
def Document.get_char_position (d : Document) (row col : Nat) : Nat :=
  (((d.lines.take row).map (fun l => l.length + 1)).sum) + col

/-- Model of `Document::insert_char` (src/cli/buffer.rs).  Out-of-range `row`
returns early.  Otherwise the cached line is updated (append when
`col > line.len()`, insert otherwise) and the rope is updated at
`get_char_position row col`; ropey's `Rope::insert_char` panics when that
position exceeds the rope length, modelled by `none`. -/
def Document.insert_char (d : Document) (row col : Nat) (c : Char) :
    Option Document :=
  if d.lines.length ≤ row then some d
  else
    let line := d.lines.getD row []
    let newLine := if line.length < col then line ++ [c] else line.insertIdx col c
    let pos := d.get_char_position row col
    if d.rope.length < pos then none
    else some { d with lines := d.lines.set row newLine,
                       rope := d.rope.insertIdx pos c,
                       modified := true }

/-- Model of `Document::delete_char` (src/cli/buffer.rs).  Returns whether a
character was removed; ropey's `Rope::remove(pos..pos+1)` panics when
`pos + 1` exceeds the rope length, modelled by `none`. -/
def Document.delete_char (d : Document) (row col : Nat) :
    Option (Document × Bool) :=
  if d.lines.length ≤ row then some (d, false)
  else
    let line := d.lines.getD row []
    if col < line.length then
      let pos := d.get_char_position row col
      if d.rope.length < pos + 1 then none
      else some ({ d with lines := d.lines.set row (line.eraseIdx col),
                          rope := d.rope.eraseIdx pos,
                          modified := true }, true)
    else some (d, false)

namespace Editor

/-- The private `Document` of src/cli/editor.rs (all three snapshots of
that file agree on it): plain line storage, no rope. -/
structure Document where
  lines : List Str
  filename : Option Str
  modified : Bool
  deriving DecidableEq

/-- Model of `Document::new` (src/cli/editor.rs). -/
def Document.new : Document :=
  { lines := [[]], filename := none, modified := false }

/-- Model of `Document::from_file` (src/cli/editor.rs), on the `Ok` path of the
read whose result is `content`; unlike the buffer.rs version it replaces
an empty split by one empty line. -/
def Document.from_file (filename content : Str) : Document :=
  let ls := rustLines content
  { lines := if ls.isEmpty then [[]] else ls, filename := some filename,
    modified := false }

end Editor

/-- Model of `SplitType` of src/cli/window.rs. -/
inductive SplitType where
  | Horizontal
  | Vertical
  deriving DecidableEq

/-- Model of `Window` of src/cli/window.rs. -/
structure Window where
  x : Nat
  y : Nat
  width : Nat
  height : Nat
  cursor_x : Nat
  cursor_y : Nat
  offset_x : Nat
  offset_y : Nat
  file_path : Option Str
  is_active : Bool
  deriving DecidableEq

/-- Model of `Window::new` (src/cli/window.rs): zero cursor and offsets, no file
path, `is_active = true`. -/
def Window.new (x y width height : Nat) : Window :=
  { x := x, y := y, width := width, height := height,
    cursor_x := 0, cursor_y := 0, offset_x := 0, offset_y := 0,
    file_path := none, is_active := true }

/-- Model of `Window::split` (src/cli/window.rs).  The Rust signature returns a
`Result` but every path returns `Ok`, so the pair is returned directly.
Note that only the second child receives `self.file_path`; the first child
keeps the `None` set by `Window::new`. -/
def Window.split (w : Window) (split_type : SplitType) : Window × Window :=
  match split_type with
  | .Horizontal =>
    let top_height := w.height / 2
    let bottom_height := w.height - top_height
    let top := Window.new w.x w.y w.width top_height
    let bottom := { Window.new w.x (w.y + top_height) w.width bottom_height with
                      file_path := w.file_path }
    (top, bottom)
  | .Vertical =>
    let left_width := w.width / 2
    let right_width := w.width - left_width
    let left := Window.new w.x w.y left_width w.height
    let right := { Window.new (w.x + left_width) w.y right_width w.height with
                     file_path := w.file_path }
    (left, right)

/-- One message of the shell output channel (src/cli/shell.rs). -/
inductive ShellOutput where
  | Line : Str → ShellOutput
  | Terminated
  deriving DecidableEq

/-- Payload of a `Line` message. -/
def linePayload : ShellOutput → Option Str
  | .Line l => some l
  | .Terminated => none

/-- The receive end of the mpsc output channel: the buffered messages not
yet received, and whether every sender has been dropped (in which case
`try_recv` reports `Disconnected` once the buffer is drained). -/
structure Channel where
  pending : List ShellOutput
  disconnected : Bool
  deriving DecidableEq

/-- Outcome of the non-blocking `Child::try_wait` call, an input of the
environment: `Ok(Some(status))`, `Ok(None)`, or `Err(e)`. -/
inductive TryWaitResult where
  | exited
  | stillRunning
  | waitErr
  deriving DecidableEq

/-- Outcome of a `writeln!` + `flush` pair on the child's stdin, an input
of the environment. -/
inductive WriteOutcome where
  | ok
  | writeFail
  | flushFail
  deriving DecidableEq

/-- Model of `Shell` of src/cli/shell.rs.  `child` and `child_stdin` model the
`Option`s inside their mutexes by presence; `output_receiver` models
`Option<Receiver<ShellOutput>>`.  The reader thread handles only matter at
teardown and are not modelled. -/
structure Shell where
  lines : List Str
  input_line : Str
  cursor_pos : Nat
  is_horizontal : Bool
  running : Bool
  command_history : List Str
  history_position : Nat
  child : Option Unit
  child_stdin : Option Unit
  output_receiver : Option Channel
  deriving DecidableEq

/-- First block of `Shell::poll_output` (src/cli/shell.rs lines 130-155):
drain the channel.  Buffered `Line` messages are appended to `lines`
(`Terminated` is only logged); when the drain hits `Disconnected` the code
sets `running = false` and then calls `self.output_receiver.lock()` again
while the guard taken at the top of the block is still held — `std`'s
mutex is not reentrant and that second `lock()` never returns (panic or
deadlock), so the whole call is modelled as `none`. -/
def Shell.poll_drain (s : Shell) : Option Shell :=
  match s.output_receiver with
  | none => some s
  | some ch =>
    let s1 := { s with lines := s.lines ++ ch.pending.filterMap linePayload }
    if ch.disconnected then none
    else some { s1 with output_receiver := some { pending := [], disconnected := false } }

/-- Second block of `Shell::poll_output` (src/cli/shell.rs lines 157-182):
check child liveness.  When `try_wait` reports an exit or an error the
code sets `running = false` and then re-locks `self.child` inside the
`if let` that still holds its guard — again a non-returning re-lock,
modelled as `none`. -/
def Shell.poll_check_child (tw : TryWaitResult) (s : Shell) : Option Shell :=
  if s.running then
    match s.child with
    | some _ =>
      match tw with
      | .stillRunning => some s
      | .exited => none
      | .waitErr => none
    | none =>
      if s.output_receiver.isNone then some { s with running := false } else some s
  else some s

/-- Model of `Shell::poll_output` (src/cli/shell.rs): drain the channel, then check
the child process.  `none` means the call never returns (see the two
blocks). -/
def Shell.poll_output (tw : TryWaitResult) (s : Shell) : Option Shell :=
  (s.poll_drain).bind (Shell.poll_check_child tw)

/-- The diagnostic line pushed by `execute_command` when the stdin handle
is absent. -/
def diagStdinUnavailable : Str := "Shell not running or stdin unavailable.".toList

/-- The history push of `execute_command` (src/cli/shell.rs lines 214-218):
a non-empty input whose trim is non-empty is appended to
`command_history`, and `history_position` becomes the new length. -/
def Shell.push_history (s : Shell) : Shell :=
  if s.input_line.isEmpty = false ∧ (rustTrim s.input_line).isEmpty = false then
    { s with command_history := s.command_history ++ [s.input_line],
             history_position := s.command_history.length + 1 }
  else s

/-- Model of `Shell::execute_command` (src/cli/shell.rs).  `tw1`/`tw2` are the
`try_wait` outcomes seen by the entry poll and the post-write poll, `w`
the outcome of the stdin write.  On trimmed input `exit` the write is best
effort, `running` is unconditionally cleared and the function returns
early.  Otherwise: with a stdin handle the history push happens before
the write, a failed write or flush returns the `ShellInputError` (leaving
the input line uncleared); without a handle a diagnostic line is pushed
and `running` is cleared, and the call still returns `Ok`.  `none` models
a call that never returns (a poll that hit a re-lock). -/
def Shell.execute_command (tw1 tw2 : TryWaitResult) (w : WriteOutcome)
    (s : Shell) : Option (Shell × Except Error Unit) :=
  match s.poll_output tw1 with
  | none => none
  | some s1 =>
    if rustTrim s1.input_line = "exit".toList then
      some ({ s1 with running := false, input_line := [], cursor_pos := 0 }, .ok ())
    else
      match s1.child_stdin with
      | some _ =>
        let s2 := s1.push_history
        match w with
        | .writeFail =>
          some (s2, .error (.ShellInputError
            (if s1.input_line.isEmpty then "Failed to write newline: ".toList
             else "Failed to write to shell: ".toList)))
        | .flushFail =>
          some (s2, .error (.ShellInputError ("Failed to flush shell stdin: ".toList)))
        | .ok =>
          let s3 := { s2 with input_line := [], cursor_pos := 0 }
          match s3.poll_output tw2 with
          | none => none
          | some s4 => some (s4, .ok ())
      | none =>
        let s2 := { s1 with lines := s1.lines ++ [diagStdinUnavailable],
                            running := false }
        let s3 := { s2 with input_line := [], cursor_pos := 0 }
        match s3.poll_output tw2 with
        | none => none
        | some s4 => some (s4, .ok ())

/-- Model of `Shell::history_up` (src/cli/shell.rs).  The index
`command_history[history_position]` taken after the decrement is in
bounds whenever `history_position ≤ command_history.len()` (the reachable
session states); it is modelled with `getD`. -/
def Shell.history_up (s : Shell) : Shell :=
  if s.command_history.isEmpty = false ∧ 0 < s.history_position then
    let hp := s.history_position - 1
    let entry := s.command_history.getD hp []
    { s with history_position := hp, input_line := entry,
             cursor_pos := entry.length }
  else s

/-- Model of `Shell::history_down` (src/cli/shell.rs).  Both occurrences of
`self.command_history.len() - 1` are `usize` subtractions, which wrap on
an empty history under release-profile semantics (`wrapPred`); the first
occurrence is short-circuited away by `!is_empty()`. -/
def Shell.history_down (s : Shell) : Shell :=
  if s.command_history.isEmpty = false ∧
      s.history_position < wrapPred s.command_history.length then
    let hp := s.history_position + 1
    let entry := s.command_history.getD hp []
    { s with history_position := hp, input_line := entry,
             cursor_pos := entry.length }
  else if s.history_position = wrapPred s.command_history.length then
    { s with history_position := s.command_history.length,
             input_line := [], cursor_pos := 0 }
  else s

/-- Model of `Buffer` of src/cli/buffer.rs, as held by a tab.  The tree-sitter
`parser`/`tree`/`language` handles are opaque external state and are not
modelled. -/
structure Buffer where
  document : Document
  cursor_x : Nat
  cursor_y : Nat
  offset_x : Nat
  offset_y : Nat
  is_shell : Bool
  shell : Option Shell
  filename : Option Str
  deriving DecidableEq

/-- Model of `Buffer::new` (src/cli/buffer.rs). -/
def Buffer.new : Buffer :=
  { document := Document.new, cursor_x := 0, cursor_y := 0,
    offset_x := 0, offset_y := 0, is_shell := false, shell := none,
    filename := none }

/-- Model of `Tab` of src/cli/tabs.rs. -/
structure Tab where
  id : Nat
  name : Str
  buffer : Buffer
  deriving DecidableEq

/-- Model of `TabManager` of src/cli/tabs.rs. -/
structure TabManager where
  tabs : List Tab
  current_tab : Nat
  tab_map : List (Str × Nat)
  next_id : Nat
  deriving DecidableEq

/-- Model of `TabManager::new`. -/
def TabManager.new : TabManager :=
  { tabs := [], current_tab := 0, tab_map := [], next_id := 0 }

/-- Model of `TabManager::switch_to_next_tab` (src/cli/tabs.rs): mirrors
`(&mut self) -> Result<()>` as (state after the call, result).  An empty
tab list yields the `TabError` and leaves the manager untouched; otherwise
the current index advances circularly. -/
def TabManager.switch_to_next_tab (m : TabManager) :
    TabManager × Except Error Unit :=
  if m.tabs.isEmpty then (m, .error (.TabError ("No tabs available".toList)))
  else ({ m with current_tab := (m.current_tab + 1) % m.tabs.length }, .ok ())

/-- Model of `TabManager::switch_to_prev_tab` (src/cli/tabs.rs). -/
def TabManager.switch_to_prev_tab (m : TabManager) :
    TabManager × Except Error Unit :=
  if m.tabs.isEmpty then (m, .error (.TabError ("No tabs available".toList)))
  else ({ m with current_tab :=
            if m.current_tab = 0 then m.tabs.length - 1 else m.current_tab - 1 },
        .ok ())

/-! Concrete session states used as inputs below. -/

/-- A stopped session: `running = false`, channel and child both released. -/
def shellStopped : Shell :=
  { lines := [], input_line := [], cursor_pos := 0, is_horizontal := false,
    running := false, command_history := [], history_position := 0,
    child := none, child_stdin := none, output_receiver := none }

/-- A session still marked running whose output channel has been
disconnected (both reader threads are gone and the senders dropped); one
buffered `Terminated` sentinel remains. -/
def shellDisconnectedIdle : Shell :=
  { shellStopped with
      running := true, child := some (), child_stdin := some (),
      output_receiver :=
        some { pending := [ShellOutput.Terminated], disconnected := true } }

/-- A running session with a live channel whose child process has exited. -/
def shellChildExited : Shell :=
  { shellStopped with
      running := true, child := some (), child_stdin := some (),
      output_receiver := some { pending := [], disconnected := false } }

/-- A healthy running session whose input line is `exit`. -/
def shellHealthyExit : Shell :=
  { shellStopped with
      input_line := "exit".toList, cursor_pos := 4,
      running := true, child := some (), child_stdin := some (),
      output_receiver := some { pending := [], disconnected := false } }

/-- A running session whose input line is `exit` but whose output channel
has been disconnected. -/
def shellDisconnectedExit : Shell :=
  { shellHealthyExit with
      output_receiver := some { pending := [], disconnected := true } }

/-- The window used to exhibit the split claims: 10 columns, 11 rows, an
advisory file path present. -/
def wC7 : Window := { Window.new 0 0 10 11 with file_path := some ("a.txt".toList) }

/-- A one-tab manager holding a fresh buffer. -/
def tmW : TabManager :=
  { tabs := [{ id := 0, name := "main".toList, buffer := Buffer.new }],
    current_tab := 0, tab_map := [("main".toList, 0)], next_id := 1 }

/-- A session with a one-command history, cursor one past the end. -/
def shellHist : Shell :=
  { shellStopped with command_history := ["ls".toList], history_position := 1 }

/-- A document with zero lines (reachable by loading an empty file, see
C6) carrying a filename. -/
def docZeroLines : Document :=
  { rope := [], lines := [], filename := some ("f.txt".toList),
    modified := false, undo_tree := UndoTree.new }

/-- A document whose last line is empty. -/
def docTrailingEmpty : Document :=
  { rope := ['a', '\n'], lines := [['a'], []], filename := some ("f.txt".toList),
    modified := true, undo_tree := UndoTree.new }

/-- A two-line document with matching rope, as produced by loading the
file `a\nb`. -/
def docW : Document :=
  { rope := ['a', '\n', 'b'], lines := [['a'], ['b']],
    filename := some ("f.txt".toList), modified := true,
    undo_tree := UndoTree.new }

/-- A one-line document with a rope in sync with its lines. -/
def dW5 : Document :=
  { rope := ['a', 'b'], lines := [['a', 'b']], filename := none,
    modified := false, undo_tree := UndoTree.new }

/-! Helper lemmas about `Shell.poll_output`. -/

/-- C1: on trimmed input `exit`, `execute_command` clears `running`, the
input line and the cursor and returns `Ok` for any write outcome — but
only when the entry `poll_output` returns.  On a session whose output
channel is disconnected the entry poll re-locks `output_receiver` inside
the `if let` that still holds its guard, and the call never returns
(third conjunct), contradicting the claim. -/
theorem c1_execute_command_exit :
    (Shell.execute_command .stillRunning .stillRunning .writeFail shellHealthyExit =
      some ({ shellHealthyExit with running := false, input_line := [], cursor_pos := 0 },
            .ok ())) ∧
    (Shell.execute_command .stillRunning .stillRunning .ok shellHealthyExit =
      some ({ shellHealthyExit with running := false, input_line := [], cursor_pos := 0 },
            .ok ())) ∧
    (Shell.execute_command .stillRunning .stillRunning .ok shellDisconnectedExit = none) :=
  ⟨rfl, rfl, rfl⟩

/-- C3: `poll_output` is a no-op returning normally on a stopped session
with released channel and child (first conjunct); but on a running session
whose channel reports disconnection it never returns — the code sets
`running = false` and then re-locks `output_receiver` while the drain
loop's guard is still held, so the channel is never released (second
conjunct); likewise the `try_wait` exit branch re-locks `child` (third
conjunct). -/
theorem c3_poll_output_noop_and_disconnect :
    (Shell.poll_output .stillRunning shellStopped = some shellStopped) ∧
    (Shell.poll_output .stillRunning shellDisconnectedIdle = none) ∧
    (Shell.poll_output .exited shellChildExited = none) :=
  ⟨rfl, rfl, rfl⟩

/-- C6: `Document::new` of src/cli/buffer.rs yields one empty line, but
`Document::from_file` on an empty file yields zero lines — violating the
never-empty invariant — while the editor.rs `Document::from_file` (same
repository, same operation) guards exactly this case and yields one empty
line. -/
theorem c6_document_never_empty_violation :
    Document.new.lines = [[]] ∧
    (Document.from_file ("empty.txt".toList) []).lines = [] ∧
    (Document.from_file ("empty.txt".toList) []).lines ≠ [[]] ∧
    (Editor.Document.from_file ("empty.txt".toList) []).lines = [[]] :=
  ⟨rfl, rfl, by decide, rfl⟩

/-- C7: `Window::split` produces two rectangles that exactly cover the
original (top 0..5, bottom 5..11 here), but only the second child receives
the parent's advisory file path — the first child's is `None`, although
the comment in the source says the path is copied to both windows — and
both children are created with `is_active = true`, so the second child is
not uniquely active. -/
theorem c7_window_split_filepath_violation :
    ((wC7.split .Horizontal).1 = Window.new 0 0 10 5) ∧
    ((wC7.split .Horizontal).2 =
      { Window.new 0 5 10 6 with file_path := some ("a.txt".toList) }) ∧
    ((wC7.split .Horizontal).1.file_path = none) ∧
    ((wC7.split .Horizontal).1.is_active = true) ∧
    ((wC7.split .Horizontal).2.is_active = true) ∧
    ((wC7.split .Vertical).1.file_path = none) ∧
    ((wC7.split .Vertical).2.file_path = some ("a.txt".toList)) :=
  ⟨rfl, rfl, rfl, rfl, rfl, rfl, rfl⟩

/-- C10: `insert_char` with `row` in range appends to the cached line when
`col` exceeds the line length, but the subsequent rope update uses
`get_char_position row col` with the raw `col`; on a fresh document,
`insert_char 0 5` computes rope position 5 in an empty rope and ropey
panics (first conjunct).  The out-of-range-row no-op half of the claim
does hold (second conjunct). -/
theorem c10_insert_char_rope_panic :
    Document.insert_char Document.new 0 5 'x' = none ∧
    Document.insert_char Document.new 5 0 'x' = some Document.new :=
  ⟨rfl, rfl⟩

/-- C9: switching tabs on an empty `TabManager` returns the `TabError`
and leaves the manager unchanged, in both directions; on a non-empty
manager both switches succeed and move the current index circularly. -/
theorem c9_tab_switch (m : TabManager) :
    (m.tabs = [] →
      m.switch_to_next_tab = (m, .error (.TabError ("No tabs available".toList))) ∧
      m.switch_to_prev_tab = (m, .error (.TabError ("No tabs available".toList)))) ∧
    (m.tabs ≠ [] →
      m.switch_to_next_tab =
        ({ m with current_tab := (m.current_tab + 1) % m.tabs.length }, .ok ()) ∧
      m.switch_to_prev_tab =
        ({ m with current_tab :=
            if m.current_tab = 0 then m.tabs.length - 1 else m.current_tab - 1 },
         .ok ())) := by
  constructor
  · intro hm
    unfold TabManager.switch_to_next_tab TabManager.switch_to_prev_tab
    simp [hm]
  · intro hm
    unfold TabManager.switch_to_next_tab TabManager.switch_to_prev_tab
    rcases hm' : m.tabs with _ | ⟨a, t⟩
    · exact absurd hm' hm
    · simp [hm']

/-- Witness for C9 at a concrete one-tab manager. -/
theorem c9_tab_switch_witness :
    tmW.switch_to_next_tab = ({ tmW with current_tab := 0 }, .ok ()) ∧
    tmW.switch_to_prev_tab = ({ tmW with current_tab := 0 }, .ok ()) :=
  (c9_tab_switch tmW).2 (by decide)

/-- The function `wrapPred` agrees with ordinary subtraction on positive `usize` values. -/
lemma wrapPred_of_pos {n : Nat} (h1 : 1 ≤ n) (h2 : n < USIZE) : wrapPred n = n - 1 := by
  unfold wrapPred USIZE
  unfold USIZE at h2
  omega

/-- On length zero, `len - 1` wraps to `usize::MAX`. -/
lemma wrapPred_zero : wrapPred 0 = USIZE - 1 := by
  unfold wrapPred USIZE
  omega

/-- C8: history navigation.  Under the session invariant
`history_position ≤ command_history.len()` (and lengths below `2^64`):
both operations are no-ops on an empty history (the `len() - 1` underflow
wraps under release semantics, making the guard false); `history_up` with
a positive cursor selects the previous entry; `history_down` strictly
below the last entry selects the next entry; and `history_down` at the
last entry clears the input line and parks the cursor one past the end. -/
theorem c8_history_navigation (s : Shell)
    (hinv : s.history_position ≤ s.command_history.length)
    (hlen : s.command_history.length < USIZE) :
    (s.command_history = [] → s.history_up = s ∧ s.history_down = s) ∧
    (0 < s.history_position →
      s.history_up = { s with
        history_position := s.history_position - 1,
        input_line := s.command_history.getD (s.history_position - 1) [],
        cursor_pos := (s.command_history.getD (s.history_position - 1) []).length }) ∧
    (s.history_position + 1 < s.command_history.length →
      s.history_down = { s with
        history_position := s.history_position + 1,
        input_line := s.command_history.getD (s.history_position + 1) [],
        cursor_pos := (s.command_history.getD (s.history_position + 1) []).length }) ∧
    (s.history_position + 1 = s.command_history.length →
      s.history_down = { s with
        history_position := s.command_history.length,
        input_line := [], cursor_pos := 0 }) := by
  refine ⟨?_, ?_, ?_, ?_⟩
  · intro hm
    have hp0 : s.history_position = 0 := by
      rw [hm] at hinv
      simpa using hinv
    have hw : wrapPred 0 ≠ 0 := by
      rw [wrapPred_zero]
      unfold USIZE
      omega
    constructor
    · unfold Shell.history_up
      rw [if_neg]
      rintro ⟨h1, -⟩
      rw [hm] at h1
      simp at h1
    · unfold Shell.history_down
      rw [if_neg, if_neg]
      · rw [hm, hp0]
        simpa using fun h => hw h.symm
      · rintro ⟨h1, -⟩
        rw [hm] at h1
        simp at h1
  · intro hpos
    have hne : s.command_history.isEmpty = false := by
      have hl : 0 < s.command_history.length := lt_of_lt_of_le hpos hinv
      cases hch : s.command_history with
      | nil =>
        rw [hch] at hl
        simp at hl
      | cons a t => rfl
    unfold Shell.history_up
    rw [if_pos ⟨hne, hpos⟩]
  · intro hmid
    have hl1 : 1 ≤ s.command_history.length := by omega
    have hne : s.command_history.isEmpty = false := by
      cases hch : s.command_history with
      | nil =>
        rw [hch] at hl1
        simp at hl1
      | cons a t => rfl
    unfold Shell.history_down
    rw [wrapPred_of_pos hl1 hlen, if_pos ⟨hne, by omega⟩]
  · intro hlast
    have hl1 : 1 ≤ s.command_history.length := by omega
    have hne : s.command_history.isEmpty = false := by
      cases hch : s.command_history with
      | nil =>
        rw [hch] at hl1
        simp at hl1
      | cons a t => rfl
    unfold Shell.history_down
    rw [wrapPred_of_pos hl1 hlen, if_neg, if_pos (by omega)]
    rintro ⟨-, h2⟩
    omega

/-- Witness for C8: `history_up` on the concrete session recalls the
recorded command. -/
theorem c8_history_navigation_witness :
    Shell.history_up shellHist =
      { shellHist with history_position := 0, input_line := "ls".toList,
                       cursor_pos := 2 } :=
  ((c8_history_navigation shellHist (by decide) (by decide)).2.1) (by decide)

/-- Scanning a newline-free tail turns the accumulator and tail into one
final segment (or nothing when both are empty). -/
lemma rustLinesGo_no_nl (l : Str) (acc : Str) (h : '\n' ∉ l) :
    rustLinesGo l acc =
      if (acc.isEmpty && l.isEmpty) then [] else [acc.reverse ++ l] := by
  induction l generalizing acc with
  | nil => simp [rustLinesGo]
  | cons c t ih =>
    have hc : ¬ (c = '\n') := fun hh => h (hh ▸ List.mem_cons_self c t)
    have ht : '\n' ∉ t := fun hm => h (List.mem_cons_of_mem c hm)
    simp only [rustLinesGo, if_neg hc]
    rw [ih (c :: acc) ht]
    simp [List.reverse_cons, List.append_assoc]

/-- Scanning a newline-free prefix followed by `'\n'` emits that prefix
(with the `'\r'` strip) as one segment and restarts. -/
lemma rustLinesGo_append_nl (l rest acc : Str) (h : '\n' ∉ l) :
    rustLinesGo (l ++ '\n' :: rest) acc =
      (dropTrailingCr (l.reverse ++ acc)).reverse :: rustLinesGo rest [] := by
  induction l generalizing acc with
  | nil => simp [rustLinesGo]
  | cons c t ih =>
    have hc : ¬ (c = '\n') := fun hh => h (hh ▸ List.mem_cons_self c t)
    have ht : '\n' ∉ t := fun hm => h (List.mem_cons_of_mem c hm)
    simp only [List.cons_append, rustLinesGo, if_neg hc, List.append_eq]
    rw [ih (c :: acc) ht]
    simp [List.reverse_cons, List.append_assoc]

/-- A segment not ending in `'\r'` is untouched by the strip. -/
lemma dropTrailingCr_reverse_of_ne (l : Str) (h : l.getLast? ≠ some '\r') :
    dropTrailingCr l.reverse = l.reverse := by
  cases hl : l.reverse with
  | nil => rfl
  | cons c t =>
    have hc : ¬ (c = '\r') := by
      intro hh
      apply h
      rw [← List.head?_reverse, hl, hh]
      rfl
    simp [dropTrailingCr, hc]

/-- Serializing lines with `join("\n")` and re-reading them with
`str::lines` is the identity provided no line contains `'\n'`, no line
except the last ends in `'\r'`, and the last line is non-empty. -/
lemma rustLines_joinLines : ∀ ls : List Str,
    (∀ l ∈ ls, '\n' ∉ l) → (∀ l ∈ ls.dropLast, l.getLast? ≠ some '\r') →
    ls.getLast? ≠ some [] → ls ≠ [] →
    rustLines (joinLines ls) = ls
  | [], _, _, _, hne => absurd rfl hne
  | [l], hnl, _, hlast, _ => by
    have h1 : '\n' ∉ l := hnl l (List.mem_singleton.mpr rfl)
    have h2 : l.isEmpty = false := by
      cases hcl : l with
      | nil =>
        exact absurd (by rw [hcl]; rfl) hlast
      | cons a t => rfl
    show rustLinesGo (joinLines [l]) [] = [l]
    rw [show joinLines [l] = l from rfl, rustLinesGo_no_nl l [] h1]
    simp [h2]
  | l :: l2 :: t, hnl, hcr, hlast, _ => by
    have h1 : '\n' ∉ l := hnl l (List.mem_cons_self l _)
    have hcrl : l.getLast? ≠ some '\r' := by
      apply hcr
      simp [List.dropLast]
    show rustLinesGo (joinLines (l :: l2 :: t)) [] = l :: l2 :: t
    rw [show joinLines (l :: l2 :: t) = l ++ '\n' :: joinLines (l2 :: t) from rfl]
    rw [rustLinesGo_append_nl l _ [] h1, List.append_nil,
      dropTrailingCr_reverse_of_ne l hcrl, List.reverse_reverse]
    congr 1
    exact rustLines_joinLines (l2 :: t)
      (fun x hx => hnl x (List.mem_cons_of_mem l hx))
      (fun x hx => hcr x (by
        simp only [List.dropLast] at hx ⊢
        exact List.mem_cons_of_mem l hx))
      (fun hh => hlast (by rw [List.getLast?_cons_cons]; exact hh))
      (List.cons_ne_nil l2 t)

/-- C4 counterexample: the save/load round trip is not the identity, and
the claimed exception is wrong too.  A zero-line document serializes to
the empty string and loads back as *zero* lines, not as a single empty
line; a trailing empty line is dropped; a `'\r'` ending a non-final line
is stripped; a `'\n'` stored inside a line splits it. -/
theorem c4_save_load_counterexample :
    (Document.save docZeroLines = .ok ({ docZeroLines with modified := false }, [])) ∧
    ((Document.from_file ("f.txt".toList) []).lines = []) ∧
    ((Document.from_file ("f.txt".toList) []).lines ≠ [[]]) ∧
    (Document.save docTrailingEmpty =
      .ok ({ docTrailingEmpty with modified := false }, ['a', '\n'])) ∧
    ((Document.from_file ("f.txt".toList) ['a', '\n']).lines = [['a']]) ∧
    ((Document.from_file ("f.txt".toList) ['a', '\n']).lines ≠ docTrailingEmpty.lines) ∧
    ((Document.from_file ("f.txt".toList) (joinLines [['a', '\r'], ['b']])).lines =
      [['a'], ['b']]) ∧
    ((Document.from_file ("f.txt".toList) (joinLines [['a', '\n', 'b']])).lines =
      [['a'], ['b']]) := by
  refine ⟨rfl, rfl, by decide, rfl, rfl, by decide, rfl, rfl⟩

/-- C4 amended: for a document with a filename, `save()` followed by
`Document::from_file` on the written content reproduces the identical
line sequence provided the document has at least one line, no line
contains `'\n'`, no line except the last ends with `'\r'`, and the last
line is non-empty.  (Without these provisos the round trip fails as the
counterexample shows.) -/
theorem c4_save_load_roundtrip_amended (d : Document) (fn : Str)
    (hfn : d.filename = some fn)
    (hne : d.lines ≠ [])
    (hnl : ∀ l ∈ d.lines, '\n' ∉ l)
    (hcr : ∀ l ∈ d.lines.dropLast, l.getLast? ≠ some '\r')
    (hlast : d.lines.getLast? ≠ some []) :
    Document.save d = .ok ({ d with modified := false }, joinLines d.lines) ∧
    (Document.from_file fn (joinLines d.lines)).lines = d.lines := by
  constructor
  · unfold Document.save
    rw [hfn]
  · show rustLines (joinLines d.lines) = d.lines
    exact rustLines_joinLines d.lines hnl hcr hlast hne

/-- Witness for amended C4 at a concrete two-line document. -/
theorem c4_save_load_roundtrip_amended_witness :
    Document.save docW = .ok ({ docW with modified := false }, joinLines docW.lines) ∧
    (Document.from_file ("f.txt".toList) (joinLines docW.lines)).lines = docW.lines :=
  c4_save_load_roundtrip_amended docW ("f.txt".toList) rfl (by decide) (by decide)
    (by decide) (by decide)

/-! Position arithmetic for claim C5. -/

/-- Summing `len + 1` equals summing `len` plus the count. -/
lemma map_succ_len_sum : ∀ ls : List Str,
    (ls.map (fun l => l.length + 1)).sum = (ls.map List.length).sum + ls.length
  | [] => rfl
  | l :: t => by
    have ih := map_succ_len_sum t
    simp only [List.map_cons, List.sum_cons, List.length_cons]
    omega

/-- Length of the serialized form: all line lengths plus one separator per
line after the first. -/
lemma joinLines_length : ∀ (l : Str) (t : List Str),
    (joinLines (l :: t)).length = ((l :: t).map List.length).sum + t.length
  | l, [] => by simp [joinLines]
  | l, l2 :: t => by
    have ih := joinLines_length l2 t
    show (l ++ '\n' :: joinLines (l2 :: t)).length = _
    simp only [List.length_append, List.length_cons, List.map_cons,
      List.sum_cons] at ih ⊢
    omega

/-- The position `get_char_position` of an in-bounds (row, col) never exceeds the
length of the serialized document. -/
lemma gcp_le_join (ls : List Str) (row col : Nat)
    (hrow : row < ls.length) (hcol : col ≤ (ls.getD row []).length) :
    ((ls.take row).map (fun l => l.length + 1)).sum + col ≤ (joinLines ls).length := by
  cases ls with
  | nil => simp at hrow
  | cons l0 t =>
    rw [joinLines_length l0 t, map_succ_len_sum]
    have hlen_take : ((l0 :: t).take row).length = row := by
      rw [List.length_take]
      exact Nat.min_eq_left (Nat.le_of_lt hrow)
    have hsplit : (((l0 :: t).take row).map List.length).sum +
        (((l0 :: t).drop row).map List.length).sum = ((l0 :: t).map List.length).sum := by
      rw [← List.sum_append, ← List.map_append, List.take_append_drop]
    have hdrop : (l0 :: t).drop row = (l0 :: t)[row] :: (l0 :: t).drop (row + 1) :=
      List.drop_eq_getElem_cons hrow
    have hgetd : (l0 :: t).getD row [] = (l0 :: t)[row] := List.getD_eq_getElem _ _ hrow
    rw [hgetd] at hcol
    rw [hdrop] at hsplit
    simp only [List.map_cons, List.sum_cons] at hsplit
    rw [hlen_take]
    simp only [List.map_cons, List.sum_cons]
    simp only [List.length_cons] at hrow
    omega

/-- Setting a row does not change the prefix before it. -/
lemma take_set_eq (ls : List Str) (row : Nat) (x : Str) :
    (ls.set row x).take row = ls.take row := by
  apply List.ext_getElem
  · simp [List.length_take, List.length_set]
  · intro i h1 h2
    have hi : i < row := by
      simp only [List.length_take, List.length_set] at h1
      omega
    rw [List.getElem_take, List.getElem_take, List.getElem_set_ne (Nat.ne_of_gt hi)]

/-- Writing back the row's own content is the identity. -/
lemma set_getD_self (ls : List Str) (row : Nat) (h : row < ls.length) :
    ls.set row (ls.getD row []) = ls := by
  rw [List.getD_eq_getElem _ _ h]
  apply List.ext_getElem
  · simp [List.length_set]
  · intro i h1 h2
    by_cases hi : row = i
    · subst hi
      rw [List.getElem_set_self _]
    · rw [List.getElem_set_ne hi]

/-- C5: for (row, col) within bounds (`row` a valid line index, `col` at
most the line's length) and a rope at least as long as the serialized
lines (which holds for every document built by `new`/`from_file` and
preserved by the editing operations), `insert_char` succeeds and a
following `delete_char` at the same position succeeds and restores the
original content of every line. -/
theorem c5_insert_delete_roundtrip (d : Document) (row col : Nat) (c : Char)
    (hrow : row < d.lines.length)
    (hcol : col ≤ (d.lines.getD row []).length)
    (hsync : (joinLines d.lines).length ≤ d.rope.length) :
    ∃ d1 d2, d.insert_char row col c = some d1 ∧
      d1.delete_char row col = some (d2, true) ∧ d2.lines = d.lines := by
  obtain ⟨rope, lines, fn, mod, ut⟩ := d
  dsimp only at hrow hcol hsync ⊢
  have hpos : ((lines.take row).map (fun l => l.length + 1)).sum + col ≤ rope.length :=
    le_trans (gcp_le_join lines row col hrow hcol) hsync
  have h1 : ¬ (lines.length ≤ row) := not_le.mpr hrow
  have h2 : ¬ ((lines.getD row []).length < col) := not_lt.mpr hcol
  have h3 : ¬ (rope.length < ((lines.take row).map (fun l => l.length + 1)).sum + col) :=
    not_lt.mpr hpos
  have hins : Document.insert_char ⟨rope, lines, fn, mod, ut⟩ row col c =
      some ⟨rope.insertIdx (((lines.take row).map (fun l => l.length + 1)).sum + col) c,
            lines.set row ((lines.getD row []).insertIdx col c), fn, true, ut⟩ := by
    simp only [Document.insert_char, Document.get_char_position, if_neg h1,
      if_neg h2, if_neg h3]
  have hX1 : ¬ ((lines.set row ((lines.getD row []).insertIdx col c)).length ≤ row) := by
    rw [List.length_set]
    exact h1
  have hgd : (lines.set row ((lines.getD row []).insertIdx col c)).getD row [] =
      (lines.getD row []).insertIdx col c := by
    rw [List.getD_eq_getElem _ _ (by rw [List.length_set]; exact hrow)]
    exact List.getElem_set_self _
  have hX2 : col < ((lines.getD row []).insertIdx col c).length := by
    rw [List.length_insertIdx col _ hcol]
    omega
  have htake : (lines.set row ((lines.getD row []).insertIdx col c)).take row =
      lines.take row := take_set_eq lines row _
  have hX3 : ¬ ((rope.insertIdx (((lines.take row).map (fun l => l.length + 1)).sum + col) c).length <
      ((lines.take row).map (fun l => l.length + 1)).sum + col + 1) := by
    rw [List.length_insertIdx _ _ hpos]
    omega
  have hdel : Document.delete_char
      ⟨rope.insertIdx (((lines.take row).map (fun l => l.length + 1)).sum + col) c,
       lines.set row ((lines.getD row []).insertIdx col c), fn, true, ut⟩ row col =
      some (⟨(rope.insertIdx (((lines.take row).map (fun l => l.length + 1)).sum + col) c).eraseIdx
               (((lines.take row).map (fun l => l.length + 1)).sum + col),
             (lines.set row ((lines.getD row []).insertIdx col c)).set row
               (((lines.getD row []).insertIdx col c).eraseIdx col), fn, true, ut⟩, true) := by
    simp only [Document.delete_char, Document.get_char_position, hgd, htake,
      if_neg hX1, if_pos hX2, if_neg hX3]
  refine ⟨_, _, hins, hdel, ?_⟩
  show (lines.set row ((lines.getD row []).insertIdx col c)).set row
      (((lines.getD row []).insertIdx col c).eraseIdx col) = lines
  rw [List.set_set, List.eraseIdx_insertIdx]
  exact set_getD_self lines row hrow

/-- Witness for C5 at a concrete document, position and character. -/
theorem c5_insert_delete_roundtrip_witness :
    ∃ d1 d2, Document.insert_char dW5 0 1 'x' = some d1 ∧
      Document.delete_char d1 0 1 = some (d2, true) ∧ d2.lines = dW5.lines :=
  c5_insert_delete_roundtrip dW5 0 1 'x' (by decide) (by decide) (by decide)
